import Mathlib

/-!
Verification of the `xamin` entry module (`src/xamin/project/entry.py`).

The development shallowly embeds the `Entry` state machine: filesystem state
is an explicit map from paths to files, Python machine behaviour (attribute
presence, `None` values, exceptions) is made explicit with `Option` and
`Except`, and the content digest is a full executable SHA-256 over the
encoded bytes, exactly as `hashlib.sha256(...).hexdigest()` computes it.
-/

namespace Xamin

/-- Filesystem paths (opaque identifiers; only equality is used). -/
abbrev FilePath := String

/-- A byte is a `Nat` kept below 256 by construction of the encoders. -/
abbrev Byte := Nat

/-! ## SHA-256 (`hashlib.sha256`), executable over `Nat` with mod-2^32 words -/

/-- Truncate to a 32-bit word. -/
def w32 (x : Nat) : Nat := x % 4294967296

/-- Right rotation of a 32-bit word. -/
def rotr32 (x n : Nat) : Nat := (x / 2 ^ n) + (x % 2 ^ n) * 2 ^ (32 - n)

/-- 32-bit bitwise complement (for words below 2^32). -/
def compl32 (x : Nat) : Nat := Nat.xor x 4294967295

/-- SHA-256 small sigma-0: rotr 7 xor rotr 18 xor shr 3. -/
def ssig0 (x : Nat) : Nat := Nat.xor (Nat.xor (rotr32 x 7) (rotr32 x 18)) (x / 8)

/-- SHA-256 small sigma-1: rotr 17 xor rotr 19 xor shr 10. -/
def ssig1 (x : Nat) : Nat := Nat.xor (Nat.xor (rotr32 x 17) (rotr32 x 19)) (x / 1024)

/-- SHA-256 big sigma-0: rotr 2 xor rotr 13 xor rotr 22. -/
def bsig0 (x : Nat) : Nat := Nat.xor (Nat.xor (rotr32 x 2) (rotr32 x 13)) (rotr32 x 22)

/-- SHA-256 big sigma-1: rotr 6 xor rotr 11 xor rotr 25. -/
def bsig1 (x : Nat) : Nat := Nat.xor (Nat.xor (rotr32 x 6) (rotr32 x 11)) (rotr32 x 25)

/-- The 64 SHA-256 round constants. -/
def sha256K : List Nat :=
  [1116352408, 1899447441, 3049323471, 3921009573, 961987163,
   1508970993, 2453635748, 2870763221, 3624381080, 310598401,
   607225278, 1426881987, 1925078388, 2162078206, 2614888103,
   3248222580, 3835390401, 4022224774, 264347078, 604807628,
   770255983, 1249150122, 1555081692, 1996064986, 2554220882,
   2821834349, 2952996808, 3210313671, 3336571891, 3584528711,
   113926993, 338241895, 666307205, 773529912, 1294757372,
   1396182291, 1695183700, 1986661051, 2177026350, 2456956037,
   2730485921, 2820302411, 3259730800, 3345764771, 3516065817,
   3600352804, 4094571909, 275423344, 430227734, 506948616,
   659060556, 883997877, 958139571, 1322822218, 1537002063,
   1747873779, 1955562222, 2024104815, 2227730452, 2361852424,
   2428436474, 2756734187, 3204031479, 3329325298]

/-- The SHA-256 initial hash state. -/
def sha256Init : List Nat :=
  [1779033703, 3144134277, 1013904242, 2773480762,
   1359893119, 2600822924, 528734635, 1541459225]

/-- One message-schedule extension step: append w[n-16]+s0(w[n-15])+w[n-7]+s1(w[n-2]). -/
def scheduleStep (ws : List Nat) : List Nat :=
  let n := ws.length
  let g : Nat → Nat := fun k => ws.getD (n - k) 0
  ws ++ [w32 (g 16 + ssig0 (g 15) + g 7 + ssig1 (g 2))]

/-- Extend the 16 chunk words to the 64-word message schedule. -/
def schedule (ws : List Nat) : List Nat := scheduleStep^[48] ws

/-- One SHA-256 compression round on the 8-word working state. -/
def compressStep (kw : Nat × Nat) (st : List Nat) : List Nat :=
  match st with
  | [a, b, c, d, e, f, g, h] =>
    let s1 := bsig1 e
    let ch := Nat.xor (Nat.land e f) (Nat.land (compl32 e) g)
    let t1 := w32 (h + s1 + ch + kw.1 + kw.2)
    let s0 := bsig0 a
    let maj := Nat.xor (Nat.xor (Nat.land a b) (Nat.land a c)) (Nat.land b c)
    let t2 := w32 (s0 + maj)
    [w32 (t1 + t2), a, b, c, w32 (d + t1), e, f, g]
  | other => other

/-- Big-endian bytes of a number, fixed width `k`. -/
def bytesBE : Nat → Nat → List Byte
  | 0, _ => []
  | k + 1, n => bytesBE k (n / 256) ++ [n % 256]

/-- Pack bytes into big-endian 32-bit words, four at a time. -/
def wordsOf : List Byte → List Nat
  | b0 :: b1 :: b2 :: b3 :: rest => (((b0 * 256 + b1) * 256 + b2) * 256 + b3) :: wordsOf rest
  | _ => []

/-- Process one 64-byte chunk into the running 8-word hash state. -/
def processChunk (h : List Nat) (chunk : List Byte) : List Nat :=
  let ws := schedule (wordsOf chunk)
  let st := (sha256K.zip ws).foldl (fun s kw => compressStep kw s) h
  (h.zip st).map (fun p => w32 (p.1 + p.2))

/-- SHA-256 padding: append 0x80, zeros to 56 mod 64, and the 64-bit bit length. -/
def padBytes (msg : List Byte) : List Byte :=
  let len := msg.length
  msg ++ [128] ++ List.replicate ((55 + 64 - len % 64) % 64) 0 ++ bytesBE 8 (8 * len)

/-- Split a byte string into 64-byte chunks (fuel-based, total). -/
def chunks64Aux : Nat → List Byte → List (List Byte)
  | 0, _ => []
  | _ + 1, [] => []
  | n + 1, bs => bs.take 64 :: chunks64Aux n (bs.drop 64)

/-- Split a byte string into 64-byte chunks. -/
def chunks64 (bs : List Byte) : List (List Byte) := chunks64Aux (bs.length + 1) bs

/-- SHA-256 digest (32 bytes) of a byte string. -/
def sha256 (msg : List Byte) : List Byte :=
  let hs := (chunks64 (padBytes msg)).foldl processChunk sha256Init
  hs.foldr (fun w acc => bytesBE 4 w ++ acc) []

/-- Lowercase hex character for a nibble. -/
def hexChar (n : Nat) : Char :=
  if n < 10 then Char.ofNat (48 + n) else Char.ofNat (87 + n)

/-- Two lowercase hex characters of a byte. -/
def hexByte (b : Byte) : List Char := [hexChar (b % 256 / 16), hexChar (b % 16)]

/-- Lowercase hex string of a byte string (`.hexdigest()`). -/
def hexdigest (bs : List Byte) : String :=
  String.mk (bs.foldr (fun b acc => hexByte b ++ acc) [])

/-! ## UTF-8 (the module's `text_encoding` default), strict as in Python -/

/-- UTF-8 encoding of one character. -/
def utf8EncodeChar (c : Char) : List Byte :=
  let n := c.toNat
  if n < 128 then [n]
  else if n < 2048 then [192 + n / 64, 128 + n % 64]
  else if n < 65536 then [224 + n / 4096, 128 + n / 64 % 64, 128 + n % 64]
  else [240 + n / 262144, 128 + n / 4096 % 64, 128 + n / 64 % 64, 128 + n % 64]

/-- UTF-8 encoding of a string (`str.encode("utf-8")`). -/
def utf8Encode (s : String) : List Byte := s.data.flatMap utf8EncodeChar

/-- Whether a byte is a UTF-8 continuation byte (10xxxxxx). -/
def isCont (b : Byte) : Bool := 128 ≤ b && b < 192

/-- Strict UTF-8 decoding, as Python's `bytes.decode("utf-8")`: rejects stray
continuation bytes, overlong forms, surrogates, values above U+10FFFF and
truncated sequences. -/
def utf8Decode : List Byte → Option (List Char)
  | [] => some []
  | b :: rest =>
    if b < 128 then (utf8Decode rest).map (fun cs => Char.ofNat b :: cs)
    else if b < 194 then none
    else if b < 224 then
      match rest with
      | b1 :: rest2 =>
        if isCont b1 then
          (utf8Decode rest2).map (fun cs => Char.ofNat ((b - 192) * 64 + (b1 - 128)) :: cs)
        else none
      | [] => none
    else if b < 240 then
      match rest with
      | b1 :: b2 :: rest2 =>
        if isCont b1 && isCont b2 then
          let n := (b - 224) * 4096 + (b1 - 128) * 64 + (b2 - 128)
          if n < 2048 then none
          else if 55296 ≤ n && n < 57344 then none
          else (utf8Decode rest2).map (fun cs => Char.ofNat n :: cs)
        else none
      | _ => none
    else if b < 245 then
      match rest with
      | b1 :: b2 :: b3 :: rest2 =>
        if isCont b1 && isCont b2 && isCont b3 then
          let n := (b - 240) * 262144 + (b1 - 128) * 4096 + (b2 - 128) * 64 + (b3 - 128)
          if n < 65536 then none
          else if n > 1114111 then none
          else (utf8Decode rest2).map (fun cs => Char.ofNat n :: cs)
        else none
      | _ => none
    else none

/-- Strict UTF-8 decoding to a `String`. -/
def utf8DecodeStr (bs : List Byte) : Option String := (utf8Decode bs).map String.mk

/-! ## Data model

Python values an entry's `_data` slot can hold: text (`str`), raw bytes
(`bytes`), or structured rows (the `CsvEntry` representation, covering the
`pickle` fallback branch of `hash`). Attribute absence and the Python value
`None` are modelled separately where the source distinguishes them. -/

/-- A Python content value held by an entry. -/
inductive PyVal where
  | str (s : String)
  | bytes (b : List Byte)
  | rows (r : List (List String))
  deriving DecidableEq, Repr

/-- A file on disk: its stat mtime and full byte content. -/
structure File where
  mtime : Nat
  content : List Byte
  deriving DecidableEq, Repr

/-- The filesystem: `none` means the path does not exist or cannot be opened. -/
abbrev FS := FilePath → Option File

/-- The `Entry` state (`entry.py`, class `Entry`):
`path` is `Optional[Path]`; `_data` is `none` when the attribute has never
been assigned (`hasattr(self, "_data")` is false) and `some v` when it holds
the Python value `v` (which can itself be `None`, i.e. `some none`);
`_loaded_hash` defaults to `""`; `_data_mtime` defaults to `None`. -/
structure Entry where
  path : Option FilePath
  _data : Option (Option PyVal)
  _loaded_hash : String
  _data_mtime : Option Nat
  deriving DecidableEq, Repr

/-- Constructor `Entry.__init__(path)`: only `path` is set; the other slots keep the class
defaults (`_data` unset, `_loaded_hash = ""`, `_data_mtime = None`). -/
def Entry.init (p : Option FilePath) : Entry :=
  { path := p, _data := none, _loaded_hash := "", _data_mtime := none }

/-- The in-memory content as `getattr(self, "_data", None)` sees it:
an unset attribute and a stored `None` both read back as `None`. -/
def Entry.dataOrNone (e : Entry) : Option PyVal := e._data.bind id

/-- Setting `hint_size`: bytes of hint read from a file (default 2048). -/
def hintSize : Nat := 2048

/-! ## Content digest (`Entry.hash`) -/

/-- Modelled from the spec (§6): the digest of structured (tabular) content is
taken "over a canonical serialization of structured content"; the source calls
`pickle.dumps`, a library serializer outside this repository, modelled here as
a fixed length-prefixed byte serialization of the rows. -/
def canonicalSerialization (rows : List (List String)) : List Byte :=
  bytesBE 8 rows.length ++
    rows.flatMap (fun r =>
      bytesBE 8 r.length ++
        r.flatMap (fun s => bytesBE 8 (utf8Encode s).length ++ utf8Encode s))

/-- The bytes `Entry.hash` digests for a given content value: UTF-8 encoded
text for `str` data, the raw bytes for `bytes` data, the canonical
serialization (`pickle.dumps` in the source) otherwise. -/
def encodeForHash : PyVal → List Byte
  | .str s => utf8Encode s
  | .bytes b => b
  | .rows r => canonicalSerialization r

/-- Digest of a content value as `Entry.hash` computes it: the empty string
when `getattr(self, "_data", None) is None`, else the lowercase hex SHA-256
of the encoded content. -/
def hashOfContent : Option PyVal → String
  | none => ""
  | some v => hexdigest (sha256 (encodeForHash v))

/-- Property `Entry.hash`: content digest of the current in-memory data.
Takes no filesystem argument and returns the entry unchanged — the source
reads only `self._data`. -/
def Entry.hash (e : Entry) : String := hashOfContent e.dataOrNone

/-! ## State predicates and small state updates -/

/-- Property `Entry.is_stale`. Mirrors the source's `if`/`elif` chain:
no `_data` attribute → `True`; no path → `False`; path does not exist →
`False`; path exists but `_data_mtime is None or _data is None` → `True`;
else `True` iff the recorded mtime is older than the file's mtime. -/
def isStale (fs : FS) (e : Entry) : Bool :=
  if e._data = none then true
  else match e.path with
  | none => false
  | some p =>
    match fs p with
    | none => false
    | some f =>
      if e._data_mtime = none ∨ e._data = some none then true
      else match e._data_mtime with
        | some m => decide (m < f.mtime)
        | none => false  -- unreachable: `_data_mtime ≠ none` in this branch

/-- Property `Entry.is_unsaved`: `True` when no path is set, else `True`
iff the current content digest differs from the recorded loaded hash. -/
def isUnsaved (e : Entry) : Bool :=
  if e.path = none then true
  else if e.hash ≠ e._loaded_hash then true
  else false

/-- Method `Entry.reset_hash`: set `_loaded_hash` to the current content digest. -/
def resetHash (e : Entry) : Entry := { e with _loaded_hash := e.hash }

/-- Errors raised below `save`/`load` level. -/
inductive IoErr where
  | ioError
  | attrError
  deriving DecidableEq, Repr

/-- Method `Entry.reset_mtime`: when a path is set, `_data_mtime` becomes the file's
stat mtime; `self.path.stat()` raises when the file does not exist. -/
def resetMtime (fs : FS) (e : Entry) : Except IoErr Entry :=
  match e.path with
  | none => .ok e
  | some p =>
    match fs p with
    | none => .error .ioError
    | some f => .ok { e with _data_mtime := some f.mtime }

/-- The `data` property setter: `self._data = value`, nothing else. -/
def setData (e : Entry) (v : Option PyVal) : Entry := { e with _data := some v }

/-! ## Content sampler (`Entry.get_hint`) -/

/-- A hint value: decoded text, or the raw bytes when decoding fails.
(`HintType` in the source is `Union[Text, ByteString, None]`; the `None`
case is the `Option` wrapper around this type.) -/
inductive HintVal where
  | text (s : String)
  | bytes (b : List Byte)
  deriving DecidableEq, Repr

/-- The hint computed from file content: the first `hintSize` bytes, decoded
to text when they decode under UTF-8, kept as bytes otherwise. -/
def hintOfBytes (bs : List Byte) : HintVal :=
  match utf8DecodeStr (bs.take hintSize) with
  | some s => .text s
  | none => .bytes (bs.take hintSize)

/-- Classmethod `Entry.get_hint(path)`: read up to `hint_size` bytes from the file; `None`
when the file cannot be opened (the bare `except:` around `open`); else the
decoded text, or the raw bytes when decoding raises. -/
def getHint (fs : FS) (p : FilePath) : Option HintVal :=
  match fs p with
  | none => none
  | some f => some (hintOfBytes f.content)

/-! ## Type registry and detector (`Entry.subclasses`, `Entry.guess_type`)

`Entry.subclasses()` builds its cached list from `all_subclasses(Entry)`
(defined in `xamin.utils.classes`, outside this module) as pairs
`(c.depth(), c)`; the registry is therefore passed in explicitly as the list
of (class-hierarchy depth, class) pairs, in enumeration order. -/

/-- An entry class as the type detector sees it: an identifying tag and the
`is_type(path, hint)` class predicate. -/
structure EntryClass where
  tag : Nat
  is_type : Option FilePath → Option HintVal → Bool

/-- The selection loop of `Entry.guess_type`, verbatim: `highest` is the
source's `highest_hierarchy`, initialised to 0 and — as in the source —
never reassigned inside the loop; `best` is `best_cls`. -/
def guessLoop (p : Option FilePath) (hint : Option HintVal) :
    List (Nat × EntryClass) → Nat → Option EntryClass → Option EntryClass
  | [], _, best => best
  | (hierarchy, c) :: rest, highest, best =>
    if highest < hierarchy && c.is_type p hint then guessLoop p hint rest highest (some c)
    else guessLoop p hint rest highest best

/-- Classmethod `Entry.guess_type(path, hint)` over a given registry: `None` when neither
a path nor a hint is available; otherwise resolve the hint via `get_hint`
when none was supplied, then run the selection loop with
`highest_hierarchy = 0`. -/
def guessType (fs : FS) (registry : List (Nat × EntryClass))
    (p : Option FilePath) (hint : Option HintVal) : Option EntryClass :=
  match p, hint with
  | none, none => none
  | _, _ =>
    let hint2 := match hint with
      | some h => some h
      | none => match p with
        | some q => getHint fs q
        | none => none
    guessLoop p hint2 registry 0 none

/-- The selection rule as claim C1 and §4.3 of the spec word it (for
comparison with `guessType`): among all variants whose predicate returns
true, the one with strictly greatest specificity; on a tie for the maximum,
the first in registry enumeration order wins. -/
def claimSelectLoop (p : Option FilePath) (hint : Option HintVal) :
    List (Nat × EntryClass) → Option (Nat × EntryClass) → Option (Nat × EntryClass)
  | [], best => best
  | (hierarchy, c) :: rest, best =>
    if c.is_type p hint &&
        (match best with
         | none => true
         | some bh => decide (bh.1 < hierarchy)) then
      claimSelectLoop p hint rest (some (hierarchy, c))
    else claimSelectLoop p hint rest best

/-- The claim-worded best match over a registry (see `claimSelectLoop`). -/
def claimSelect (registry : List (Nat × EntryClass))
    (p : Option FilePath) (hint : Option HintVal) : Option EntryClass :=
  (claimSelectLoop p hint registry none).map (fun x => x.2)

/-! ## Load and save lifecycle -/

/-- Modelled from the spec (§4.4, §4.5): the per-variant capabilities absent
from `src/` (only the abstract `Entry` is in the repository sources). A
variant supplies a default value (`default_data`), a decoder from file bytes
to content (the variant-specific read), and an encoder from content to file
bytes (the variant-specific write). -/
structure Variant where
  default : Option PyVal
  decode : List Byte → Option PyVal
  encode : Option PyVal → List Byte

/-- Method `Entry.pre_load`: install the variant's `default_data()` when the
`_data` attribute has never been set. -/
def preLoad (v : Variant) (e : Entry) : Entry :=
  if e._data = none then { e with _data := some v.default } else e

/-- Method `Entry.post_load`: reset the loaded hash, then the recorded mtime. -/
def postLoad (fs : FS) (e : Entry) : Except IoErr Entry :=
  resetMtime fs (resetHash e)

/-- Modelled from the spec (§4.4 `load()`, §7): the variant-specific read,
implemented by the `TextEntry`/`BinaryEntry`/`CsvEntry` subclasses that are
not under `src/`. With no bound path there is nothing to read (the base
class reads nothing); with a bound path, I/O and decode failures propagate
as `IoFailure`. -/
def variantRead (v : Variant) (fs : FS) (e : Entry) : Except IoErr Entry :=
  match e.path with
  | none => .ok e
  | some p =>
    match fs p with
    | none => .error .ioError
    | some f =>
      match v.decode f.content with
      | none => .error .ioError
      | some d => .ok { e with _data := some (some d) }

/-- Method `Entry.load`: `pre_load`, the variant read, then `post_load`. -/
def load (v : Variant) (fs : FS) (e : Entry) : Except IoErr Entry :=
  match variantRead v fs (preLoad v e) with
  | .error err => .error err
  | .ok e1 => postLoad fs e1

/-- The `data` property getter: `load()` first when `is_stale`, then return
`self._data` (an `AttributeError` would be raised were the slot still unset). -/
def dataGet (v : Variant) (fs : FS) (e : Entry) : Except IoErr (Option PyVal × Entry) :=
  match (if isStale fs e then load v fs e else .ok e) with
  | .error err => .error err
  | .ok e1 =>
    match e1._data with
    | none => .error .attrError
    | some d => .ok (d, e1)

/-- The errors `Entry.save` raises: `MissingPath`, `FileChanged`, or a
propagated I/O failure. -/
inductive SaveErr where
  | missingPath
  | fileChanged
  | ioError
  deriving DecidableEq, Repr

/-- Method `Entry.pre_save(overwrite)`: `MissingPath` when no path is set;
`FileChanged` when `not overwrite and hasattr(self, "_data") and
self.is_stale`. -/
def preSave (fs : FS) (e : Entry) (overwrite : Bool) : Option SaveErr :=
  if e.path = none then some .missingPath
  else if !overwrite && !decide (e._data = none) && isStale fs e then some .fileChanged
  else none

/-- Write a file: the path now holds the given bytes with the given mtime. -/
def writeFile (fs : FS) (p : FilePath) (bs : List Byte) (now : Nat) : FS :=
  fun q => if q = p then some { mtime := now, content := bs } else fs q

/-- Method `Entry.save(overwrite)`: `pre_save` checks, then the variant-specific
write (modelled from §4.4 step 3: performed only when `is_unsaved`, absent
from `src/` like the other variant capabilities), then `post_save`
(identical to `post_load`: reset hash, then mtime). -/
def save (v : Variant) (fs : FS) (now : Nat) (e : Entry) (overwrite : Bool) :
    Except SaveErr (FS × Entry) :=
  match preSave fs e overwrite with
  | some err => .error err
  | none =>
    match e.path with
    | none => .error .missingPath  -- unreachable: `pre_save` raised already
    | some p =>
      let fs2 := if isUnsaved e then writeFile fs p (v.encode e.dataOrNone) now else fs
      match resetMtime fs2 (resetHash e) with
      | .error _ => .error .ioError
      | .ok e2 => .ok (fs2, e2)

/-- Staleness as claim C2 words it (for comparison with `isStale`): false if
unbound; false if the path no longer exists; true if the path exists but the
entry has never been loaded; otherwise true iff the file's current mtime
exceeds the recorded `data_mtime` — never stale when unbound or the file is
missing, regardless of whether content has been loaded. -/
def claimStale (fs : FS) (e : Entry) : Bool :=
  match e.path with
  | none => false
  | some p =>
    match fs p with
    | none => false
    | some f =>
      match e._data_mtime with
      | none => true
      | some m => decide (m < f.mtime)

/-! ## Concrete fixtures for evaluating the model -/

/-- Whether a character is a lowercase hex digit: ASCII digit 0-9 (codes
48-57) or letter a-f (codes 97-102). -/
def isLowerHexDigit (c : Char) : Bool :=
  (48 ≤ c.toNat && c.toNat ≤ 57) || (97 ≤ c.toNat && c.toNat ≤ 102)

/-- An empty filesystem: no path exists. -/
def fsEmpty : FS := fun _ => none

/-- Modelled from the spec (§4.5): the Text variant — the default value is
the empty string, decode reads the file bytes as UTF-8 text, encode writes
the UTF-8 bytes of the string. -/
def textVariant : Variant where
  default := some (.str "")
  decode := fun bs => (utf8DecodeStr bs).map .str
  encode := fun d =>
    match d with
    | some (.str s) => utf8Encode s
    | _ => []

/-- A text file holding "hi", last modified at time 10. -/
def fileHi : File := { mtime := 10, content := utf8Encode "hi" }

/-- A filesystem with the single file "a.txt" (see `fileHi`). -/
def fsA : FS := fun p => if p = "a.txt" then some fileHi else none

/-- A bound, loaded entry whose recorded mtime (3) is older than the backing
file's mtime (10 in `fsA`), i.e. a stale entry. -/
def entStale : Entry :=
  { path := some "a.txt", _data := some (some (.str "old")),
    _loaded_hash := "", _data_mtime := some 3 }

/-- A bound, loaded, synced entry holding "ab" with its own digest recorded. -/
def entSynced : Entry :=
  { path := some "a.txt", _data := some (some (.str "ab")),
    _loaded_hash := hashOfContent (some (.str "ab")), _data_mtime := some 10 }

/-- An always-matching entry class of tag 0 (stands for a depth-2 variant). -/
def clsA : EntryClass := { tag := 0, is_type := fun _ _ => true }

/-- An always-matching entry class of tag 1 (stands for a depth-1 variant). -/
def clsB : EntryClass := { tag := 1, is_type := fun _ _ => true }

/-- A registry that enumerates a depth-2 variant before a depth-1 variant,
both of whose predicates match the probed path. -/
def registryTwoOne : List (Nat × EntryClass) := [(2, clsA), (1, clsB)]

/-- The entry state after `load()` on an unbound Text entry: the variant's
empty-string default installed, its digest recorded, no mtime. -/
def entLoadedDefault : Entry :=
  { path := none, _data := some (some (.str "")),
    _loaded_hash := hashOfContent (some (.str "")), _data_mtime := none }

/-- The entry state after `load()` of "a.txt" from `fsA` as a Text entry. -/
def entLoadedHi : Entry :=
  { path := some "a.txt", _data := some (some (.str "hi")),
    _loaded_hash := hashOfContent (some (.str "hi")), _data_mtime := some 10 }

/-! ## Digest shape lemmas -/

theorem compressStep_length (kw : Nat × Nat) (st : List Nat) :
    (compressStep kw st).length = st.length := by
  unfold compressStep
  split <;> simp

theorem foldl_compressStep_length (l : List (Nat × Nat)) (h : List Nat) :
    (l.foldl (fun s kw => compressStep kw s) h).length = h.length := by
  induction l generalizing h with
  | nil => rfl
  | cons kw rest ih => rw [List.foldl_cons, ih, compressStep_length]

theorem processChunk_length (h : List Nat) (c : List Byte) :
    (processChunk h c).length = h.length := by
  unfold processChunk
  simp [List.length_zip, foldl_compressStep_length]

theorem foldl_processChunk_length (cs : List (List Byte)) (h : List Nat) :
    (cs.foldl processChunk h).length = h.length := by
  induction cs generalizing h with
  | nil => rfl
  | cons c rest ih => rw [List.foldl_cons, ih, processChunk_length]

theorem bytesBE_length (k n : Nat) : (bytesBE k n).length = k := by
  induction k generalizing n with
  | zero => rfl
  | succ k ih => simp [bytesBE, ih]

theorem foldr_words_length (hs : List Nat) :
    (hs.foldr (fun w acc => bytesBE 4 w ++ acc) ([] : List Byte)).length = 4 * hs.length := by
  induction hs with
  | nil => rfl
  | cons w rest ih =>
    simp only [List.foldr_cons, List.length_append, List.length_cons, bytesBE_length, ih]
    ring

theorem sha256_length (msg : List Byte) : (sha256 msg).length = 32 := by
  unfold sha256
  rw [foldr_words_length, foldl_processChunk_length]
  rfl

theorem hexByte_length (b : Byte) : (hexByte b).length = 2 := rfl

theorem foldr_hex_length (bs : List Byte) :
    (bs.foldr (fun b acc => hexByte b ++ acc) ([] : List Char)).length = 2 * bs.length := by
  induction bs with
  | nil => rfl
  | cons b rest ih =>
    simp only [List.foldr_cons, List.length_append, List.length_cons, hexByte_length, ih]
    ring

theorem hexdigest_length (bs : List Byte) : (hexdigest bs).length = 2 * bs.length :=
  foldr_hex_length bs

theorem hashOfContent_ne_empty (v : PyVal) : hashOfContent (some v) ≠ "" := by
  intro h
  have h2 : (hashOfContent (some v)).length = 0 := by rw [h]; rfl
  simp only [hashOfContent, hexdigest_length, sha256_length] at h2
  omega

theorem hexChar_lower (n : Nat) (h : n < 16) : isLowerHexDigit (hexChar n) = true := by
  interval_cases n <;> decide

theorem foldr_hex_lower (bs : List Byte) (c : Char)
    (hc : c ∈ bs.foldr (fun b acc => hexByte b ++ acc) ([] : List Char)) :
    isLowerHexDigit c = true := by
  induction bs with
  | nil => cases hc
  | cons b rest ih =>
    simp only [List.foldr_cons, hexByte, List.cons_append, List.nil_append,
      List.mem_cons] at hc
    rcases hc with hc | hc | hc
    · exact hc ▸ hexChar_lower _ (Nat.div_lt_of_lt_mul (Nat.mod_lt _ (by omega)))
    · exact hc ▸ hexChar_lower _ (Nat.mod_lt _ (by omega))
    · exact ih hc

theorem hexdigest_lower (bs : List Byte) (c : Char) (hc : c ∈ (hexdigest bs).data) :
    isLowerHexDigit c = true :=
  foldr_hex_lower bs c hc

/-! ## Entry lifecycle lemmas -/

theorem hash_congr (e1 e2 : Entry) (h : e1._data = e2._data) :
    Entry.hash e1 = Entry.hash e2 := by
  unfold Entry.hash Entry.dataOrNone
  rw [h]

theorem preLoad_path (v : Variant) (e : Entry) : (preLoad v e).path = e.path := by
  unfold preLoad
  split <;> rfl

theorem resetMtime_ok (fs : FS) (e e2 : Entry) (h : resetMtime fs e = .ok e2) :
    e2.path = e.path ∧ e2._data = e._data ∧ e2._loaded_hash = e._loaded_hash := by
  unfold resetMtime at h
  split at h
  · injection h with h2
    subst h2
    exact ⟨rfl, rfl, rfl⟩
  · split at h
    · cases h
    · injection h with h2
      subst h2
      exact ⟨rfl, rfl, rfl⟩

theorem postLoad_ok (fs : FS) (e e2 : Entry) (h : postLoad fs e = .ok e2) :
    e2.path = e.path ∧ e2._data = e._data ∧ e2._loaded_hash = Entry.hash e := by
  unfold postLoad at h
  simpa [resetHash] using resetMtime_ok fs (resetHash e) e2 h

theorem variantRead_ok (v : Variant) (fs : FS) (e e1 : Entry)
    (h : variantRead v fs e = .ok e1) : e1.path = e.path := by
  unfold variantRead at h
  split at h
  · injection h with h2
    subst h2
    rfl
  · split at h
    · cases h
    · split at h
      · cases h
      · injection h with h2
        subst h2
        rfl

theorem load_ok (v : Variant) (fs : FS) (e e1 : Entry) (h : load v fs e = .ok e1) :
    e1.path = e.path ∧ e1._loaded_hash = Entry.hash e1 := by
  unfold load at h
  split at h
  · cases h
  next em heq =>
    obtain ⟨hp, hd, hh⟩ := postLoad_ok fs em e1 h
    refine ⟨by rw [hp, variantRead_ok v fs _ em heq, preLoad_path], ?_⟩
    rw [hh, hash_congr e1 em hd]

theorem save_ok_inv (v : Variant) (fs : FS) (now : Nat) (e : Entry) (ow : Bool)
    (fs2 : FS) (e2 : Entry) (h : save v fs now e ow = .ok (fs2, e2)) :
    e2.path = e.path ∧ e2._data = e._data ∧ e2._loaded_hash = Entry.hash e ∧
      e.path ≠ none := by
  unfold save at h
  split at h
  · cases h
  · split at h
    · cases h
    next p hpp =>
      split at h
      all_goals
        simp only [] at h
        split at h
        · simp at h
        next e3 hrm =>
          simp only [Except.ok.injEq, Prod.mk.injEq] at h
          obtain ⟨hfs, he2⟩ := h
          subst he2
          obtain ⟨h1, h2, h3⟩ := resetMtime_ok _ _ _ hrm
          simp only [resetHash] at h1 h2 h3
          refine ⟨h1, h2, h3, ?_⟩
          rw [hpp]
          simp

theorem save_no_raise (v : Variant) (fs : FS) (now : Nat) (e : Entry) (ow : Bool)
    (p : FilePath) (hpp : e.path = some p) (hps : preSave fs e ow = none) :
    save v fs now e ow = .error .ioError ∨ ∃ r, save v fs now e ow = .ok r := by
  unfold save
  simp only [hps, hpp]
  split
  · exact Or.inl rfl
  · exact Or.inr ⟨_, rfl⟩

/-! ## The claims -/

/-- C1: `guess_type` does not return the maximum-specificity match with
first-on-tie order. On a registry enumerating a depth-2 always-matching
variant before a depth-1 always-matching variant, the code returns the
depth-1 class (the last match scanned, because `highest_hierarchy` is never
updated from 0), while the selection rule the claim states returns the
depth-2 class. -/
theorem c1_guess_type_last_match_wins :
    (guessType fsEmpty registryTwoOne (some "f.csv") (some (.text "x"))).map EntryClass.tag
      = some 1 ∧
    (claimSelect registryTwoOne (some "f.csv") (some (.text "x"))).map EntryClass.tag
      = some 0 :=
  ⟨rfl, rfl⟩

/-- C2 counterexample: an unbound, never-initialized entry (fresh
`Entry(None)`) is reported stale by the code (`hasattr` check fires first),
while the claim's description says an unbound entry is never stale. -/
theorem c2_counterexample :
    isStale fsEmpty (Entry.init none) = true ∧
    claimStale fsEmpty (Entry.init none) = false :=
  ⟨rfl, rfl⟩

/-- C2 amended: `is_stale` is true iff the `_data` slot was never initialized
(regardless of binding or file existence), or the entry is bound to an
existing file and either `data_mtime` is unset, or the content is `None`, or
the file's current mtime exceeds the recorded `data_mtime`. Unbound or
missing-file entries whose content slot has been initialized are never
stale. -/
theorem c2_is_stale_amended : ∀ (fs : FS) (e : Entry), isStale fs e = true ↔
    (e._data = none ∨ ∃ p f, e.path = some p ∧ fs p = some f ∧
      (e._data_mtime = none ∨ e._data = some none ∨
        ∃ m, e._data_mtime = some m ∧ m < f.mtime)) := by
  intro fs e
  obtain ⟨pp, dd, lh, mt⟩ := e
  cases dd with
  | none => simp [isStale]
  | some dv =>
    cases pp with
    | none => simp [isStale]
    | some p =>
      cases hfp : fs p with
      | none => simp [isStale, hfp]
      | some f =>
        cases mt with
        | none => simp [isStale, hfp]
        | some m =>
          cases dv with
          | none => simp [isStale, hfp]
          | some pv => simp [isStale, hfp]

/-- C4: `is_unsaved` is true whenever the entry is unbound, and for a bound
entry it is true exactly when the current content digest differs from the
recorded `loaded_hash`. -/
theorem c4_is_unsaved_characterization : ∀ e : Entry,
    (e.path = none → isUnsaved e = true) ∧
    (e.path ≠ none → (isUnsaved e = true ↔ Entry.hash e ≠ e._loaded_hash)) := by
  intro e
  constructor
  · intro h
    simp [isUnsaved, h]
  · intro h
    by_cases hh : Entry.hash e = e._loaded_hash <;> simp [isUnsaved, h, hh]

/-- C6: on a bound entry, setting the content to a value whose digest differs
from the recorded sync digest makes `is_unsaved` true, and setting it back
to a digest-equal value makes `is_unsaved` false again. -/
theorem c6_dirty_flag_roundtrip : ∀ (e : Entry) (v w : Option PyVal), e.path ≠ none →
    (hashOfContent v ≠ e._loaded_hash → isUnsaved (setData e v) = true) ∧
    (hashOfContent w = e._loaded_hash → isUnsaved (setData (setData e v) w) = false) := by
  intro e v w hp
  constructor
  · intro hv
    simp [isUnsaved, setData, Entry.hash, Entry.dataOrNone, hp, hv]
  · intro hw
    simp [isUnsaved, setData, Entry.hash, Entry.dataOrNone, hp, hw]

/-- C7: the digest is a pure function of the in-memory content (entries with
equal `_data` hash equally — the function takes no filesystem and returns no
modified state); it is the empty string exactly when no content value is
present (`getattr(self, "_data", None) is None`); and every character of it
is lowercase hex. -/
theorem c7_hash_pure : ∀ e1 e2 : Entry,
    (e1._data = e2._data → Entry.hash e1 = Entry.hash e2) ∧
    (Entry.hash e1 = "" ↔ e1.dataOrNone = none) ∧
    (∀ c ∈ (Entry.hash e1).data, isLowerHexDigit c = true) := by
  intro e1 e2
  refine ⟨fun h => hash_congr e1 e2 h, ?_, ?_⟩
  · cases hd : e1.dataOrNone with
    | none => simp [Entry.hash, hd, hashOfContent]
    | some v =>
      simp only [Entry.hash, hd]
      exact ⟨fun h => absurd h (hashOfContent_ne_empty v), fun h => by cases h⟩
  · intro c hc
    cases hd : e1.dataOrNone with
    | none =>
      rw [Entry.hash, hd] at hc
      cases hc
    | some v =>
      rw [Entry.hash, hd] at hc
      exact hexdigest_lower _ c hc

/-- C9: the content setter replaces only the in-memory content — `path`,
`loaded_hash` and `data_mtime` are all left unchanged by the assignment. -/
theorem c9_setter_frame : ∀ (e : Entry) (v : Option PyVal),
    (setData e v).path = e.path ∧
    (setData e v)._loaded_hash = e._loaded_hash ∧
    (setData e v)._data_mtime = e._data_mtime ∧
    (setData e v)._data = some v :=
  fun _ _ => ⟨rfl, rfl, rfl, rfl⟩

/-- C10: reading the content getter on an unbound, never-loaded entry does
not raise: it triggers `load()`, which installs the variant's default value,
records the digest of that default as `loaded_hash`, leaves `data_mtime` as
`None` (no stat is attempted — the result holds for every filesystem), and
returns the default value. -/
theorem c10_getter_unbound_default : ∀ (v : Variant) (fs : FS) (e : Entry),
    e.path = none → e._data = none → e._data_mtime = none →
    dataGet v fs e = .ok (v.default,
      { path := none, _data := some v.default,
        _loaded_hash := hashOfContent v.default, _data_mtime := none }) := by
  intro v fs e h1 h2 h3
  obtain ⟨pp, dd, lh, mt⟩ := e
  subst h1
  subst h2
  subst h3
  rfl

/-- C8: the content sampler is total — `get_hint` returns `None` exactly when
the path cannot be opened; otherwise its result is determined by the first
`hint_size` bytes of the file alone (at most that many bytes are read), and
is the decoded text when those bytes decode as UTF-8, the raw byte prefix
otherwise. The default `hint_size` is 2048. -/
theorem c8_get_hint_total : ∀ (fs : FS) (p : FilePath),
    (getHint fs p = none ↔ fs p = none) ∧
    (∀ f, fs p = some f →
      getHint fs p = some (hintOfBytes f.content) ∧
      hintOfBytes f.content = hintOfBytes (f.content.take hintSize) ∧
      ((∃ s, utf8DecodeStr (f.content.take hintSize) = some s ∧
          hintOfBytes f.content = .text s) ∨
       (utf8DecodeStr (f.content.take hintSize) = none ∧
          hintOfBytes f.content = .bytes (f.content.take hintSize)))) ∧
    hintSize = 2048 := by
  intro fs p
  refine ⟨?_, ?_, rfl⟩
  · cases hfp : fs p <;> simp [getHint, hfp]
  · intro f hf
    refine ⟨by simp [getHint, hf], ?_, ?_⟩
    · simp [hintOfBytes, List.take_take]
    · cases hdec : utf8DecodeStr (f.content.take hintSize) with
      | some s => exact Or.inl ⟨s, rfl, by simp [hintOfBytes, hdec]⟩
      | none => exact Or.inr ⟨rfl, by simp [hintOfBytes, hdec]⟩

/-- C3: `save` fails with `MissingPath` exactly when the entry is unbound;
for a bound entry it fails with `FileChanged` exactly when `overwrite` is
false, the content slot has been set, and `is_stale` holds; with
`overwrite = true` on a bound entry neither check can fire. -/
theorem c3_save_protocol : ∀ (v : Variant) (fs : FS) (now : Nat) (e : Entry) (ow : Bool),
    (save v fs now e ow = .error .missingPath ↔ e.path = none) ∧
    (e.path ≠ none →
      (save v fs now e ow = .error .fileChanged ↔
        (ow = false ∧ e._data ≠ none ∧ isStale fs e = true))) ∧
    (ow = true → e.path ≠ none →
      save v fs now e ow ≠ .error .missingPath ∧
      save v fs now e ow ≠ .error .fileChanged) := by
  intro v fs now e ow
  by_cases hp : e.path = none
  · have hs : save v fs now e ow = .error .missingPath := by
      simp [save, preSave, hp]
    exact ⟨by simp [hs, hp], fun h => absurd hp h, fun _ h => absurd hp h⟩
  · obtain ⟨p, hpp⟩ := Option.ne_none_iff_exists'.mp hp
    by_cases hG : (!ow && !decide (e._data = none) && isStale fs e) = true
    · have hG2 : ow = false ∧ e._data ≠ none ∧ isStale fs e = true := by
        simpa [Bool.and_eq_true, Bool.not_eq_true', decide_eq_false_iff_not,
          and_assoc] using hG
      have hs : save v fs now e ow = .error .fileChanged := by
        simp [save, preSave, hp, hG]
      refine ⟨by simp [hs, hp], fun _ => ?_, fun how _ => ?_⟩
      · rw [hs]
        simp [hG2.1, hG2.2.1, hG2.2.2]
      · rw [how] at hG2
        cases hG2.1
    · have hG2 : ¬(ow = false ∧ e._data ≠ none ∧ isStale fs e = true) := by
        simpa [Bool.and_eq_true, Bool.not_eq_true', decide_eq_false_iff_not,
          and_assoc] using hG
      have hps : preSave fs e ow = none := by
        simp [preSave, hp, hG]
      rcases save_no_raise v fs now e ow p hpp hps with hs | ⟨r, hs⟩ <;>
        exact ⟨by simp [hs, hp], fun _ => iff_of_false (by simp [hs]) hG2,
          fun _ _ => by simp [hs]⟩

/-- C5 counterexample: on an unbound entry, `load()` completes successfully
(installing the Text variant's empty default and recording its digest), yet
`is_unsaved` is still true afterwards, because an entry without a path is
always unsaved. -/
theorem c5_counterexample :
    load textVariant fsEmpty (Entry.init none) = .ok entLoadedDefault ∧
    isUnsaved entLoadedDefault = true :=
  ⟨rfl, rfl⟩

/-- C5 amended: for every variant, `is_unsaved` is false immediately after a
completed `load()` on a bound entry, and immediately after a successful
`save()` (which presupposes a bound entry); an unbound entry stays unsaved
after `load()`. -/
theorem c5_sync_after_load_save : ∀ (v : Variant) (fs : FS) (e : Entry),
    (∀ e1, e.path ≠ none → load v fs e = .ok e1 → isUnsaved e1 = false) ∧
    (∀ now ow fs2 e2, save v fs now e ow = .ok (fs2, e2) → isUnsaved e2 = false) := by
  intro v fs e
  constructor
  · intro e1 hp hl
    obtain ⟨hpe, hh⟩ := load_ok v fs e e1 hl
    have hne : e1.path ≠ none := by rw [hpe]; exact hp
    simp [isUnsaved, hne, hh]
  · intro now ow fs2 e2 hs
    obtain ⟨h1, h2, h3, hpn⟩ := save_ok_inv v fs now e ow fs2 e2 hs
    have hhash : Entry.hash e2 = Entry.hash e := hash_congr e2 e h2
    have hpne : e2.path ≠ none := by rw [h1]; exact hpn
    simp [isUnsaved, hpne, hhash, h3]

/-! ## Witnesses: the claim theorems applied at concrete inputs -/

theorem c2_is_stale_amended_witness : isStale fsA (Entry.init (some "a.txt")) = true :=
  (c2_is_stale_amended fsA (Entry.init (some "a.txt"))).mpr (Or.inl rfl)

theorem c3_save_protocol_witness :
    save textVariant fsEmpty 5 (Entry.init none) false = .error .missingPath ∧
    save textVariant fsA 99 entStale false = .error .fileChanged := by
  constructor
  · exact (c3_save_protocol textVariant fsEmpty 5 (Entry.init none) false).1.mpr rfl
  · exact ((c3_save_protocol textVariant fsA 99 entStale false).2.1
      (by decide)).mpr ⟨rfl, by decide, by decide⟩

theorem c4_is_unsaved_characterization_witness : isUnsaved (Entry.init none) = true :=
  (c4_is_unsaved_characterization (Entry.init none)).1 rfl

theorem c5_sync_after_load_save_witness : isUnsaved entLoadedHi = false :=
  (c5_sync_after_load_save textVariant fsA (Entry.init (some "a.txt"))).1
    entLoadedHi (by decide) rfl

theorem c6_dirty_flag_roundtrip_witness :
    isUnsaved (setData entSynced (some (.str "x"))) = true ∧
    isUnsaved (setData (setData entSynced (some (.str "x"))) (some (.str "ab"))) = false := by
  have h := c6_dirty_flag_roundtrip entSynced (some (.str "x")) (some (.str "ab")) (by decide)
  exact ⟨h.1 (by decide), h.2 (by decide)⟩

theorem c7_hash_pure_witness : Entry.hash (Entry.init none) = "" :=
  (c7_hash_pure (Entry.init none) (Entry.init none)).2.1.mpr rfl

theorem c8_get_hint_total_witness : getHint fsA "a.txt" = some (hintOfBytes fileHi.content) :=
  ((c8_get_hint_total fsA "a.txt").2.1 fileHi rfl).1

theorem c10_getter_unbound_default_witness :
    dataGet textVariant fsEmpty (Entry.init none) =
      .ok (textVariant.default, entLoadedDefault) :=
  c10_getter_unbound_default textVariant fsEmpty (Entry.init none) rfl rfl rfl

end Xamin
